import Mathlib

/-!
Shallow embedding of `convert_sdf_utils.py` (SDF_Converter): the block
repairer `_make_mol_block_from_string`, the property accessors
`_has_prop_on_mol_block` and `_get_prop_value_from_mol_block`, the
validator `_check_mol_block_has_all_prop`, the atom-count maximum
`_max_atoms_in_mol_block`, and the orchestrator `convert_to_sdf`.

External collaborators are parameters: `conv` models
`Chem.inchi.InchiToInchiKey`, `norm` models the
`pybel.readstring('sdf', ...)` round trip of `_make_mol_block_rational`
(returning `none` when OpenBabel rejects the text), and `atomCount`
models `len(mol.atoms)`.  Fallible Python code is embedded in
`Except PyErr`; Python string primitives (`strip`, `upper`, `in`,
`startswith`, `join`) are modelled by structurally recursive functions
over `List Char` so that every definition evaluates inside the kernel.
Python `os.path` helpers are modelled in the aspects the program
observes, in particular that `os.path.abspath(None)` and
`os.path.join(dir, None)` raise `TypeError`.  File output is modelled by
recording, for each of the two groups, the `(path, blocks)` write call
that `_write_mol_block_to_file` would receive (or `none` when the call
is skipped).
-/

/-- Python exception classes that the embedded code can raise. -/
inductive PyErr where
  | valueError
  | indexError
  | typeError
deriving DecidableEq, Repr

instance {ε α : Type} [DecidableEq ε] [DecidableEq α] : DecidableEq (Except ε α) := fun x y =>
  match x, y with
  | .error a, .error b =>
    if h : a = b then .isTrue (by rw [h]) else .isFalse (fun he => h (Except.error.inj he))
  | .ok a, .ok b =>
    if h : a = b then .isTrue (by rw [h]) else .isFalse (fun he => h (Except.ok.inj he))
  | .error _, .ok _ => .isFalse (fun he => Except.noConfusion he)
  | .ok _, .error _ => .isFalse (fun he => Except.noConfusion he)

/-- Characters Python's argumentless `str.strip()` removes. -/
def pyIsSpace (c : Char) : Bool :=
  c = ' ' || c = '\t' || c = '\n' || c = '\r' || c = '\x0b' || c = '\x0c'

/-- Strip characters satisfying `p` from both ends of a character list. -/
def stripEnds (p : Char → Bool) (l : List Char) : List Char :=
  ((l.dropWhile p).reverse.dropWhile p).reverse

/-- Python `s.strip()` with no argument: whitespace stripped from both ends. -/
def pyTrim (s : String) : String := String.mk (stripEnds pyIsSpace s.toList)

/-- Python `s.strip(chars)`: removes leading and trailing characters that occur
in the character set `chars` (a character-set strip from both ends, not a
prefix or suffix removal); with `chars` empty it removes nothing, matching
`str.strip('')`. -/
def pyStrip (s chars : String) : String :=
  String.mk (stripEnds (fun c => chars.toList.contains c) s.toList)

/-- Does the second list start with the first? -/
def listStarts : List Char → List Char → Bool
  | [], _ => true
  | _ :: _, [] => false
  | p :: ps, c :: cs => p = c && listStarts ps cs

/-- Does the pattern occur as a contiguous sublist? -/
def listContainsSub (pat : List Char) : List Char → Bool
  | [] => listStarts pat []
  | c :: cs => listStarts pat (c :: cs) || listContainsSub pat cs

/-- Python substring containment `sub in s`. -/
def pyIn (sub s : String) : Bool := listContainsSub sub.toList s.toList

/-- Python `s.startswith(pre)`. -/
def pyStartsWith (s pre : String) : Bool := listStarts pre.toList s.toList

/-- Python `s.upper()` (ASCII, which covers every tag in the source). -/
def pyToUpper (s : String) : String := String.mk (s.toList.map Char.toUpper)

/-- Split a character list at every occurrence of `sep`. -/
def splitOnChar (sep : Char) : List Char → List (List Char)
  | [] => [[]]
  | c :: cs =>
    match splitOnChar sep cs with
    | [] => if c = sep then [[], []] else [[c]]
    | h :: t => if c = sep then [] :: h :: t else (c :: h) :: t

/-- Interleave `sep` between the pieces. -/
def joinWithChar (sep : Char) : List (List Char) → List Char
  | [] => []
  | [x] => x
  | x :: xs => x ++ sep :: joinWithChar sep xs

/-- Python `'\n'.join(lines)`. -/
def joinLines (lines : List String) : String :=
  String.mk (joinWithChar '\n' (lines.map String.toList))

def SDF_TAG_MASS_SPEC_PEAKS : String := "MASS SPECTRAL PEAKS"

def SDF_TAG_INCHIKEY : String := "INCHIKEY"

def SDF_TAG_INCHI : String := "INCHI"

def SDF_TAG_NAME : String := "NAME"

def SDF_TAG_MOLECULE_MASS : String := "EXACT MASS"

/-- The closed set of required tags (`expected_props` in the source). -/
def expected_props : List String :=
  [SDF_TAG_MASS_SPEC_PEAKS, SDF_TAG_INCHIKEY, SDF_TAG_INCHI, SDF_TAG_NAME, SDF_TAG_MOLECULE_MASS]

/-- The SDF section-header form of a tag, Python `'>  <%s>' % key`. -/
def sdfHeader (key : String) : String := ">  <" ++ key ++ ">"

/-- Embedding of `_has_prop_on_mol_block` (source lines 127-152): raises
`ValueError` when `prop_key` is outside `expected_props`, otherwise folds over
the block looking for a line whose `strip()` equals the section header. -/
def _has_prop_on_mol_block (block : List String) (prop_key : String) : Except PyErr Bool :=
  if prop_key ∉ expected_props then
    .error .valueError
  else
    .ok (block.foldl
      (fun has_prop line => if pyTrim line = sdfHeader prop_key then true else has_prop) false)

/-- The `for ind, line in enumerate(block)` loop of
`_get_prop_value_from_mol_block` (source lines 176-184), on the suffix of the
block still to scan; `block[ind + 1]` is the head of the rest of the list, and
its absence is Python's `IndexError`.  The first branch is the special-cased
comment lookup (only reachable when the full header name was rewritten to
`>  <COMMENT>`), the second is the plain lookup that breaks at the first
matching header. -/
def get_prop_loop (pkfn : String) : List String → Except PyErr String
  | [] => .ok ""
  | line :: rest =>
    if pkfn = ">  <COMMENT>" ∧ pkfn = pyTrim line then
      match rest.head? with
      | none => .error .indexError
      | some next =>
        if pyStartsWith next "InChI=" then .ok (pyStrip next "InChI=")
        else get_prop_loop pkfn rest
    else if pkfn = pyTrim line then
      match rest.head? with
      | none => .error .indexError
      | some next => .ok (pyStrip next "")
    else get_prop_loop pkfn rest

/-- Embedding of `_get_prop_value_from_mol_block` (source lines 155-185).  The
guard calls `_has_prop_on_mol_block` (which may raise `ValueError`); when the
guard is false the Python function falls off its end and returns `None`,
embedded as `.ok none`.  The full header name is built from `prop_key.upper()`
and rewritten to `>  <COMMENT>` for the InChI tag. -/
def _get_prop_value_from_mol_block (block : List String) (prop_key : String) :
    Except PyErr (Option String) :=
  match _has_prop_on_mol_block block prop_key with
  | .error e => .error e
  | .ok has =>
    if has = true ∨ prop_key = SDF_TAG_INCHI then
      let pkfn0 := sdfHeader (pyToUpper prop_key)
      let pkfn := if pkfn0 = ">  <INCHI>" then ">  <COMMENT>" else pkfn0
      match get_prop_loop pkfn block with
      | .error e => .error e
      | .ok v => .ok (some v)
    else .ok none

/-- One iteration of the `for line in mol_str_in_lines` loop of
`_make_mol_block_from_string` (source lines 83-98).  The state is the block
built so far paired with the list of arguments passed so far to the
InChI-to-InChIKey collaborator `conv` (the call log makes "the collaborator is
not invoked" provable).  `Chem.inchi.InchiToInchiKey('InChI=' + inchi)` is
`conv ("InChI=" ++ inchi)`; the Python local `inchikey` starts as `''` and is
reassigned only when `inchi` is truthy (non-empty). -/
def make_mol_block_step (conv : String → String) (st : List String × List String)
    (line : String) : Except PyErr (List String × List String) :=
  let block := st.1
  let calls := st.2
  if pyIn "V2000" line then .ok (block ++ ["", line], calls)
  else if pyIn ">  <NAME>" line then .ok (block ++ ["M  END", line], calls)
  else if pyIn "$$$$" line then
    match _get_prop_value_from_mol_block block SDF_TAG_INCHI with
    | .error e => .error e
    | .ok iv =>
      let inchi := iv.getD ""
      if inchi = "" then
        .ok (block ++ [sdfHeader "INCHI", inchi, ""] ++ [sdfHeader SDF_TAG_INCHIKEY, "", "", line],
          calls)
      else
        .ok (block ++ [sdfHeader "INCHI", inchi, ""] ++
          [sdfHeader SDF_TAG_INCHIKEY, conv ("InChI=" ++ inchi), "", line],
          calls ++ ["InChI=" ++ inchi])
  else .ok (block ++ [line], calls)

/-- Embedding of `_make_mol_block_from_string` (source lines 65-99): fold the
per-line step over the raw record, starting from the empty block; the call log
is discarded here but available through the step function.  (For the InChI tag
the accessor never returns Python `None`, so the `Option.getD` default in the
step is unreachable.) -/
def _make_mol_block_from_string (conv : String → String) (mol_str_in_lines : List String) :
    Except PyErr (List String) :=
  match mol_str_in_lines.foldlM (make_mol_block_step conv) ([], []) with
  | .error e => .error e
  | .ok st => .ok st.1

/-- Embedding of `_make_mol_block_rational` (source lines 102-124): the
`pybel.readstring` / `write('sdf')` round trip is the external structure
normalizer, modelled by `norm` acting on the joined block text; `none` is the
rejected case (the caught `IOError`, yielding Python `None`). -/
def _make_mol_block_rational (norm : String → Option (List String)) (mol_block : List String) :
    Option (List String) :=
  norm (joinLines mol_block)

/-- Embedding of `_check_mol_block_has_all_prop` (source lines 203-211):
collect the `_has_prop_on_mol_block` status for each expected tag, then
`np.all`. -/
def _check_mol_block_has_all_prop (mol_block : List String) : Except PyErr Bool := do
  let prop_check_status ← expected_props.mapM (fun k => _has_prop_on_mol_block mol_block k)
  pure (prop_check_status.all (fun b => b))

/-- Embedding of `_max_atoms_in_mol_block` (source lines 214-221): running
maximum initialized at `-1024`, updated whenever the collaborator's atom count
exceeds it, clamped with `max(_, 0)` at the end. -/
def _max_atoms_in_mol_block (atomCount : String → Nat) (mol_block_list : List (List String)) :
    Int :=
  let m := mol_block_list.foldl
    (fun max_num_atoms mol_block =>
      if (atomCount (joinLines mol_block) : Int) > max_num_atoms
      then (atomCount (joinLines mol_block) : Int) else max_num_atoms)
    (-1024)
  max m 0

/-- The first loop of `convert_to_sdf` (source lines 250-256): repair each raw
record, run it through the normalizer, and keep the accepted blocks in input
order (`mol_block_list`). -/
def accepted_mol_blocks (conv : String → String) (norm : String → Option (List String))
    (records : List (List String)) : Except PyErr (List (List String)) :=
  records.foldlM (fun acc mol_str =>
    match _make_mol_block_from_string conv mol_str with
    | .error e => .error e
    | .ok b =>
      match _make_mol_block_rational norm b with
      | some mol_block => .ok (acc ++ [mol_block])
      | none => .ok acc) []

/-- One iteration of the second loop of `convert_to_sdf` (source lines
261-266): route the block into the valid or the failed group, incrementing
`num_failed` on the failed side. -/
def partition_step (st : List (List String) × List (List String) × Nat)
    (mol_block : List String) :
    Except PyErr (List (List String) × List (List String) × Nat) :=
  match _check_mol_block_has_all_prop mol_block with
  | .error e => .error e
  | .ok c =>
    if c then .ok (st.1 ++ [mol_block], st.2.1, st.2.2)
    else .ok (st.1, st.2.1 ++ [mol_block], st.2.2 + 1)

/-- The second loop of `convert_to_sdf` (source lines 258-266): partition the
accepted blocks into the valid and failed groups. -/
def partition_mol_blocks (mol_block_list : List (List String)) :
    Except PyErr (List (List String) × List (List String) × Nat) :=
  mol_block_list.foldlM partition_step ([], [], 0)

/-- Model of the working directory used by the `os.path.abspath` model. -/
def py_cwd : String := "/cwd"

/-- Model of `os.path.abspath` on a string argument (the `None` argument case,
which raises `TypeError`, is handled at the call site in `convert_to_sdf`).
Path normalization beyond absolutization is not modelled; no claim observes
it. -/
def os_path_abspath (s : String) : String :=
  if s = "" then py_cwd
  else if pyStartsWith s "/" then s
  else py_cwd ++ "/" ++ s

/-- Model of `os.path.join` on string arguments (the `None` second argument
case, which raises `TypeError`, is handled at the call site). -/
def os_path_join (a b : String) : String :=
  if pyStartsWith b "/" then b
  else if a = "" ∨ listStarts ['/'] a.toList.reverse then a ++ b
  else a ++ "/" ++ b

/-- Model of `os.path.split`: splits at the last slash.  (Stdlib edge cases
such as trailing-slash stripping are not observed by any claim.) -/
def os_path_split (p : String) : String × String :=
  let parts := splitOnChar '/' p.toList
  (String.mk (joinWithChar '/' parts.dropLast), String.mk (parts.getLastD []))

/-- The value `convert_to_sdf` returns, together with the write calls it made.
`validWrite` / `failedWrite` record the `(path, blocks)` argument of the
corresponding `_write_mol_block_to_file` call, or `none` when that call was
skipped. -/
structure ConvertResult where
  valid_mol_block_list : List (List String)
  failed_mol_block_list : List (List String)
  num_valid_mol_block : Nat
  num_failed_mol_block : Nat
  max_num_atoms : Int
  validWrite : Option (String × List (List String))
  failedWrite : Option (String × List (List String))
deriving DecidableEq, Repr

/-- Embedding of `convert_to_sdf` (source lines 224-288).  `records` is the
list of raw record line-lists that `Chem.SDMolSupplier` / `GetItemText`
produce (the external record source).  Mirrors the source order: accepted
blocks, partition, path computation (where `output_dir is ''` is the CPython
interned-empty-string identity test, and a `None` `output_dir` or
`failed_block_file_name` raises `TypeError` at `os.path.abspath` /
`os.path.join` respectively, before any write), then the two conditional
writes, the maximum atom count, and the final counts from `len()`. -/
def convert_to_sdf (conv : String → String) (norm : String → Option (List String))
    (atomCount : String → Nat) (records : List (List String)) (path_to_bad_sdf : String)
    (failed_block_file_name : Option String := none) (output_dir : Option String := none) :
    Except PyErr ConvertResult :=
  match accepted_mol_blocks conv norm records with
  | .error e => .error e
  | .ok mol_block_list =>
    match partition_mol_blocks mol_block_list with
    | .error e => .error e
    | .ok (valid_mol_block_list, failed_mol_block_list, _num_failed) =>
      let sp := os_path_split path_to_bad_sdf
      let out_dir := sp.1
      let sdf_name := sp.2
      let od0 : Option String :=
        if output_dir = some "" then some (os_path_abspath out_dir) else output_dir
      match od0 with
      | none => .error .typeError
      | some od1 =>
        let odir := os_path_abspath od1
        let save_valid_mol_block_to_path := os_path_join odir ("converted_" ++ sdf_name)
        match failed_block_file_name with
        | none => .error .typeError
        | some fbf =>
          let save_failed_mol_block_to_path := os_path_join odir fbf
          let validWrite :=
            if valid_mol_block_list.isEmpty then none
            else some (save_valid_mol_block_to_path, valid_mol_block_list)
          let max_num_atoms : Int :=
            if valid_mol_block_list.isEmpty then 0
            else _max_atoms_in_mol_block atomCount valid_mol_block_list
          let failedWrite :=
            if fbf ≠ "" ∧ failed_mol_block_list.isEmpty = false
            then some (save_failed_mol_block_to_path, failed_mol_block_list)
            else none
          .ok { valid_mol_block_list := valid_mol_block_list
                failed_mol_block_list := failed_mol_block_list
                num_valid_mol_block := valid_mol_block_list.length
                num_failed_mol_block := failed_mol_block_list.length
                max_num_atoms := max_num_atoms
                validWrite := validWrite
                failedWrite := failedWrite }

/-- Specification-side restatement of the existence check: some line of the
block strips to the section header of the tag. -/
def hasPropB (block : List String) (key : String) : Bool :=
  block.any (fun l => pyTrim l = sdfHeader key)

/-- Specification-side restatement of the all-five-tags check. -/
def checkAllPropsB (block : List String) : Bool :=
  expected_props.all (fun k => hasPropB block k)

/-- The maximum of the external atom counts over a group of blocks (zero when
the group is empty). -/
def specMaxAtoms (atomCount : String → Nat) (blocks : List (List String)) : Nat :=
  (blocks.map (fun b => atomCount (joinLines b))).foldl Nat.max 0

/-- Reference definition for the spec sentence behind C6: a repair pass that
applies only the record-terminator rule of the Block Repairer and copies every
other line unchanged.  The terminator branch is word-for-word the one of
`make_mol_block_step`, so the two can be compared. -/
def terminator_only_step (conv : String → String) (st : List String × List String)
    (line : String) : Except PyErr (List String × List String) :=
  let block := st.1
  let calls := st.2
  if pyIn "$$$$" line then
    match _get_prop_value_from_mol_block block SDF_TAG_INCHI with
    | .error e => .error e
    | .ok iv =>
      let inchi := iv.getD ""
      if inchi = "" then
        .ok (block ++ [sdfHeader "INCHI", inchi, ""] ++ [sdfHeader SDF_TAG_INCHIKEY, "", "", line],
          calls)
      else
        .ok (block ++ [sdfHeader "INCHI", inchi, ""] ++
          [sdfHeader SDF_TAG_INCHIKEY, conv ("InChI=" ++ inchi), "", line],
          calls ++ ["InChI=" ++ inchi])
  else .ok (block ++ [line], calls)

/-- Reference repairer applying only the terminator-triggered insertion. -/
def repair_terminator_only (conv : String → String) (mol_str_in_lines : List String) :
    Except PyErr (List String) :=
  match mol_str_in_lines.foldlM (terminator_only_step conv) ([], []) with
  | .error e => .error e
  | .ok st => .ok st.1


/-! ### Concrete collaborators for closed instances -/

/-- Concrete identifier-conversion collaborator for closed instances. -/
def conv_test : String → String := fun s => "KEY-" ++ s

/-- Split a string at newlines (helper for the concrete normalizers). -/
def splitLinesPy (s : String) : List String :=
  (splitOnChar '\n' s.toList).map String.mk

/-- Concrete normalizer that accepts every block and re-serializes it
unchanged. -/
def norm_accept : String → Option (List String) := fun s => some (splitLinesPy s)

/-- Concrete normalizer that rejects any text containing the letter b. -/
def norm_reject_b : String → Option (List String) :=
  fun s => if pyIn "b" s then none else some (splitLinesPy s)

/-- Concrete atom-count collaborator: the length of the text. -/
def atom_len : String → Nat := fun s => s.length

/-- A raw record that carries all five required tags. -/
def rec_ok : List String :=
  [">  <MASS SPECTRAL PEAKS>", "1 2", ">  <INCHIKEY>", "K", ">  <INCHI>", "I",
   ">  <NAME>", "n", ">  <EXACT MASS>", "10"]

/-- The repaired form of `rec_ok` (end-of-structure marker inserted before the
name-section header). -/
def rec_ok_repaired : List String :=
  [">  <MASS SPECTRAL PEAKS>", "1 2", ">  <INCHIKEY>", "K", ">  <INCHI>", "I",
   "M  END", ">  <NAME>", "n", ">  <EXACT MASS>", "10"]

/-! ### Supporting lemmas -/

lemma except_bind_ok {ε α β : Type} (a : α) (f : α → Except ε β) :
    (Except.ok a >>= f) = f a := rfl

lemma foldl_has_prop_eq_any (block : List String) (h : String) (acc : Bool) :
    block.foldl (fun a l => if pyTrim l = h then true else a) acc
      = (acc || block.any (fun l => pyTrim l = h)) := by
  induction block generalizing acc with
  | nil => simp
  | cons x xs ih =>
    simp only [List.foldl_cons, List.any_cons]
    rw [ih]
    by_cases hx : pyTrim x = h
    · simp [hx]
    · simp [hx, Bool.or_assoc]

lemma has_prop_ok (block : List String) (prop_key : String) (hk : prop_key ∈ expected_props) :
    _has_prop_on_mol_block block prop_key = .ok (hasPropB block prop_key) := by
  rw [_has_prop_on_mol_block, if_neg (by simpa using hk)]
  rw [foldl_has_prop_eq_any]
  simp [hasPropB]

lemma mapM_loop_ok {α β : Type} (f : α → Except PyErr β) (g : α → β) :
    ∀ (l : List α) (acc : List β), (∀ a ∈ l, f a = .ok (g a)) →
    List.mapM.loop f l acc = .ok (acc.reverse ++ l.map g) := by
  intro l
  induction l with
  | nil => intro acc _; simp [List.mapM.loop]; rfl
  | cons a as ih =>
    intro acc h
    have ha : f a = .ok (g a) := h a (by simp)
    rw [List.mapM.loop, ha, except_bind_ok, ih (g a :: acc) (fun x hx => h x (by simp [hx]))]
    simp

lemma mapM_ok_of_forall {α β : Type} (f : α → Except PyErr β) (g : α → β)
    (l : List α) (h : ∀ a ∈ l, f a = .ok (g a)) : l.mapM f = .ok (l.map g) := by
  have := mapM_loop_ok f g l [] h
  simpa [List.mapM] using this

lemma check_eq (block : List String) :
    _check_mol_block_has_all_prop block = .ok (checkAllPropsB block) := by
  have hm := mapM_ok_of_forall (fun k => _has_prop_on_mol_block block k)
    (fun k => hasPropB block k) expected_props (fun k hk => has_prop_ok block k hk)
  rw [_check_mol_block_has_all_prop]
  rw [hm, except_bind_ok]
  rfl

lemma partition_loop (blocks : List (List String)) :
    ∀ (v f : List (List String)) (n : Nat),
    blocks.foldlM partition_step (v, f, n)
      = .ok (v ++ blocks.filter (fun b => checkAllPropsB b),
          f ++ blocks.filter (fun b => !(checkAllPropsB b)),
          n + (blocks.filter (fun b => !(checkAllPropsB b))).length) := by
  induction blocks with
  | nil => intro v f n; simp; rfl
  | cons b bs ih =>
    intro v f n
    rw [List.foldlM_cons, partition_step, check_eq b]
    by_cases hb : checkAllPropsB b
    · simp only [hb, if_true, except_bind_ok, ih, List.filter_cons, Bool.not_true]
      simp [List.append_assoc]
    · simp only [hb, Bool.false_eq_true, if_false, except_bind_ok, ih, List.filter_cons,
        Bool.not_false]
      simp [List.append_assoc, Nat.add_comm, Nat.add_assoc, Nat.add_left_comm]

lemma partition_eq (blocks : List (List String)) :
    partition_mol_blocks blocks
      = .ok (blocks.filter (fun b => checkAllPropsB b),
          blocks.filter (fun b => !(checkAllPropsB b)),
          (blocks.filter (fun b => !(checkAllPropsB b))).length) := by
  have h := partition_loop blocks [] [] 0
  simpa [partition_mol_blocks] using h

lemma length_filter_split {α : Type} (l : List α) (p : α → Bool) :
    (l.filter p).length + (l.filter (fun x => !(p x))).length = l.length := by
  induction l with
  | nil => simp
  | cons x xs ih =>
    by_cases hx : p x <;> simp [List.filter_cons, hx, ← ih] <;> omega

lemma get_prop_loop_ne_valueError (pkfn : String) :
    ∀ l : List String, get_prop_loop pkfn l ≠ .error .valueError := by
  intro l
  induction l with
  | nil => simp [get_prop_loop]
  | cons line rest ih =>
    rw [get_prop_loop]
    by_cases h1 : pkfn = ">  <COMMENT>" ∧ pkfn = pyTrim line
    · rw [if_pos h1]
      cases rest.head? with
      | none => simp
      | some next =>
        cases hs : pyStartsWith next "InChI=" with
        | true => simp [hs]
        | false => simpa [hs] using ih
    · rw [if_neg h1]
      by_cases h2 : pkfn = pyTrim line
      · rw [if_pos h2]
        cases rest.head? with
        | none => simp
        | some next => simp
      · rw [if_neg h2]
        exact ih

lemma get_prop_loop_append (pkfn : String) (suf : List String) :
    ∀ pre : List String, (∀ x ∈ pre, pyTrim x ≠ pkfn) →
    get_prop_loop pkfn (pre ++ suf) = get_prop_loop pkfn suf := by
  intro pre
  induction pre with
  | nil => intro _; rfl
  | cons x xs ih =>
    intro h
    have hx : pyTrim x ≠ pkfn := h x (by simp)
    have hx2 : ¬ pkfn = pyTrim x := fun he => hx he.symm
    rw [List.cons_append, get_prop_loop, if_neg (fun hc => hx2 hc.2), if_neg hx2]
    exact ih (fun y hy => h y (by simp [hy]))

lemma get_prop_loop_comment_ok (v : String) (hv : v ≠ "") :
    ∀ l : List String, get_prop_loop ">  <COMMENT>" l = .ok v →
    ∃ i hl next, l[i]? = some hl ∧ pyTrim hl = ">  <COMMENT>" ∧ l[i + 1]? = some next ∧
      pyStartsWith next "InChI=" = true ∧ v = pyStrip next "InChI=" := by
  intro l
  induction l with
  | nil =>
    intro h
    rw [get_prop_loop] at h
    exact absurd (Except.ok.inj h).symm hv
  | cons line rest ih =>
    intro h
    rw [get_prop_loop] at h
    by_cases h1 : (">  <COMMENT>" : String) = ">  <COMMENT>" ∧
        (">  <COMMENT>" : String) = pyTrim line
    · rw [if_pos h1] at h
      cases rest with
      | nil => exact absurd h (by simp)
      | cons next rest2 =>
        simp only [List.head?] at h
        cases hs : pyStartsWith next "InChI=" with
        | true =>
          rw [hs, if_pos rfl] at h
          refine ⟨0, line, next, by simp, h1.2.symm, by simp, hs, (Except.ok.inj h).symm⟩
        | false =>
          rw [hs] at h
          simp only [Bool.false_eq_true, if_false] at h
          obtain ⟨i, hl, nx, hg1, hg2, hg3, hg4, hg5⟩ := ih h
          exact ⟨i + 1, hl, nx, by simpa using hg1, hg2, by simpa using hg3, hg4, hg5⟩
    · rw [if_neg h1] at h
      have h2 : ¬ (">  <COMMENT>" : String) = pyTrim line := fun hc => h1 ⟨rfl, hc⟩
      rw [if_neg h2] at h
      obtain ⟨i, hl, nx, hg1, hg2, hg3, hg4, hg5⟩ := ih h
      exact ⟨i + 1, hl, nx, by simpa using hg1, hg2, by simpa using hg3, hg4, hg5⟩

lemma get_prop_eq_of_mem (block : List String) (tag : String) (hk : tag ∈ expected_props) :
    _get_prop_value_from_mol_block block tag =
      if hasPropB block tag = true ∨ tag = SDF_TAG_INCHI then
        match get_prop_loop
            (if sdfHeader (pyToUpper tag) = ">  <INCHI>" then ">  <COMMENT>"
             else sdfHeader (pyToUpper tag)) block with
        | .error e => .error e
        | .ok v => .ok (some v)
      else .ok none := by
  rw [_get_prop_value_from_mol_block, has_prop_ok block tag hk]

lemma get_prop_inchi_eq (block : List String) :
    _get_prop_value_from_mol_block block SDF_TAG_INCHI =
      match get_prop_loop ">  <COMMENT>" block with
      | .error e => .error e
      | .ok v => .ok (some v) := by
  rw [get_prop_eq_of_mem block SDF_TAG_INCHI (by simp [expected_props]),
    if_pos (Or.inr rfl)]
  rfl

lemma running_max_step (mx c : Int) : (if c > mx then c else mx) = max mx c := by
  by_cases h : c > mx
  · rw [if_pos h, max_eq_right h.le]
  · rw [if_neg h, max_eq_left (not_lt.mp h)]

lemma foldl_max_cast (g : List String → Nat) (l : List (List String)) :
    ∀ n : Nat, l.foldl (fun mx x => max mx ((g x : Int))) (n : Int)
      = ((l.foldl (fun mx x => Nat.max mx (g x)) n : Nat) : Int) := by
  induction l with
  | nil => intro n; simp
  | cons x xs ih =>
    intro n
    rw [List.foldl_cons, List.foldl_cons]
    rw [show max (n : Int) ((g x : Int)) = ((Nat.max n (g x) : Nat) : Int) by
      rw [Nat.cast_max]]
    exact ih (Nat.max n (g x))

lemma max_atoms_eq_spec (atomCount : String → Nat) (blocks : List (List String)) :
    _max_atoms_in_mol_block atomCount blocks = (specMaxAtoms atomCount blocks : Int) := by
  rw [_max_atoms_in_mol_block]
  simp only [running_max_step]
  cases blocks with
  | nil => rfl
  | cons b bs =>
    rw [List.foldl_cons]
    have h0 : max (-1024 : Int) ((atomCount (joinLines b) : Int)) =
        ((atomCount (joinLines b) : Int)) := by
      refine max_eq_right ?_
      exact le_trans (by norm_num) (Int.natCast_nonneg _)
    rw [h0, foldl_max_cast (fun x => atomCount (joinLines x)) bs (atomCount (joinLines b))]
    rw [max_eq_left (Int.natCast_nonneg _)]
    rw [specMaxAtoms, List.map_cons, List.foldl_cons, List.foldl_map]
    have hz : Nat.max 0 (atomCount (joinLines b)) = atomCount (joinLines b) :=
      Nat.max_eq_right (Nat.zero_le _)
    rw [hz]

lemma make_step_no_marker (conv : String → String) (st : List String × List String)
    (line : String) (hv : pyIn "V2000" line = false) (hn : pyIn ">  <NAME>" line = false) :
    make_mol_block_step conv st line = terminator_only_step conv st line := by
  rw [make_mol_block_step, terminator_only_step]
  rw [hv]
  rw [hn]
  simp only [Bool.false_eq_true, if_false]

lemma foldlM_make_eq_terminator_only (conv : String → String) :
    ∀ (lines : List String) (st : List String × List String),
    (∀ l ∈ lines, pyIn "V2000" l = false ∧ pyIn ">  <NAME>" l = false) →
    lines.foldlM (make_mol_block_step conv) st
      = lines.foldlM (terminator_only_step conv) st := by
  intro lines
  induction lines with
  | nil => intro st _; rfl
  | cons l ls ih =>
    intro st h
    rw [List.foldlM_cons, List.foldlM_cons,
      make_step_no_marker conv st l (h l (by simp)).1 (h l (by simp)).2]
    cases hts : terminator_only_step conv st l with
    | error e => rfl
    | ok st2 =>
      rw [except_bind_ok, except_bind_ok]
      exact ih st2 (fun y hy => h y (by simp [hy]))


/-- Field characterization of a completed `convert_to_sdf` run in terms of the
accepted block list; shared by the orchestrator claims. -/
lemma convert_ok_spec (conv : String → String) (norm : String → Option (List String))
    (atomCount : String → Nat) (records : List (List String)) (path : String)
    (fn od : Option String) (r : ConvertResult) (acc : List (List String))
    (hc : convert_to_sdf conv norm atomCount records path fn od = .ok r)
    (ha : accepted_mol_blocks conv norm records = .ok acc) :
    r.valid_mol_block_list = acc.filter (fun b => checkAllPropsB b) ∧
    r.failed_mol_block_list = acc.filter (fun b => !(checkAllPropsB b)) ∧
    r.num_valid_mol_block = r.valid_mol_block_list.length ∧
    r.num_failed_mol_block = r.failed_mol_block_list.length ∧
    (r.valid_mol_block_list.isEmpty = true → r.validWrite = none) ∧
    r.max_num_atoms = (if r.valid_mol_block_list.isEmpty then 0
      else _max_atoms_in_mol_block atomCount r.valid_mol_block_list) := by
  simp only [convert_to_sdf, ha, partition_eq] at hc
  split at hc
  · exact absurd hc (by simp)
  · split at hc
    · exact absurd hc (by simp)
    · have hr := (Except.ok.inj hc).symm
      subst hr
      refine ⟨rfl, rfl, rfl, rfl, ?_, rfl⟩
      intro hemp
      simp only [hemp]
      rfl

/-! ### Claims -/

/-- C1: in every completed run of `convert_to_sdf`, each block accepted by the
normalizer is appended to the valid group iff `_has_prop_on_mol_block` holds on
it for all five expected tags, otherwise it is appended to the failed group and
counted there (the failure count is the failed group's length); both groups are
the order-preserving filters of the accepted list, so blocks appear in input
record order. -/
theorem convert_to_sdf_partitions_by_required_props
    (conv : String → String) (norm : String → Option (List String)) (atomCount : String → Nat)
    (records : List (List String)) (path : String) (fn od : Option String)
    (r : ConvertResult) (acc : List (List String))
    (hc : convert_to_sdf conv norm atomCount records path fn od = .ok r)
    (ha : accepted_mol_blocks conv norm records = .ok acc) :
    r.valid_mol_block_list = acc.filter (fun b => checkAllPropsB b) ∧
    r.failed_mol_block_list = acc.filter (fun b => !(checkAllPropsB b)) ∧
    r.num_failed_mol_block = r.failed_mol_block_list.length ∧
    (∀ b k, k ∈ expected_props → _has_prop_on_mol_block b k = .ok (hasPropB b k)) := by
  have h := convert_ok_spec conv norm atomCount records path fn od r acc hc ha
  exact ⟨h.1, h.2.1, h.2.2.2.1, fun b k hk => has_prop_ok b k hk⟩

/-- Witness for C1: a two-record run (one fully tagged record, one bare record)
in which the valid and failed groups are exactly the two filters. -/
theorem convert_to_sdf_partitions_by_required_props_witness :
    (convert_to_sdf conv_test norm_accept atom_len [rec_ok, ["x"]] "/d/in.sdf"
        (some "f.sdf") (some "/o")
      = .ok ⟨[rec_ok_repaired], [["x"]], 1, 1, 95,
          some ("/o/converted_in.sdf", [rec_ok_repaired]), some ("/o/f.sdf", [["x"]])⟩) ∧
    (accepted_mol_blocks conv_test norm_accept [rec_ok, ["x"]]
      = .ok [rec_ok_repaired, ["x"]]) ∧
    ([rec_ok_repaired] = [rec_ok_repaired, ["x"]].filter (fun b => checkAllPropsB b) ∧
     [["x"]] = [rec_ok_repaired, ["x"]].filter (fun b => !(checkAllPropsB b))) := by
  refine ⟨rfl, rfl, ?_⟩
  have h := convert_to_sdf_partitions_by_required_props conv_test norm_accept atom_len
    [rec_ok, ["x"]] "/d/in.sdf" (some "f.sdf") (some "/o")
    ⟨[rec_ok_repaired], [["x"]], 1, 1, 95,
      some ("/o/converted_in.sdf", [rec_ok_repaired]), some ("/o/f.sdf", [["x"]])⟩
    [rec_ok_repaired, ["x"]] rfl rfl
  exact ⟨h.1, h.2.1⟩

/-- C2 counterexample: on the empty block (which has no NAME header line) the
lookup returns Python None, not the empty string. -/
theorem get_prop_absent_returns_none_cex :
    _get_prop_value_from_mol_block [] SDF_TAG_NAME = .ok none ∧
    _get_prop_value_from_mol_block [] SDF_TAG_NAME ≠ .ok (some "") :=
  ⟨rfl, by decide⟩

/-- C2 (amended): for every block and every expected tag other than InChI, if
no line of the block strips to the tag's section header then the lookup falls
off the end of the Python function and returns None (no value), embedded as
`.ok none`. -/
theorem get_prop_absent_tag_returns_none (block : List String) (tag : String)
    (h1 : tag ∈ expected_props) (h2 : tag ≠ SDF_TAG_INCHI)
    (h3 : ∀ l ∈ block, pyTrim l ≠ sdfHeader tag) :
    _get_prop_value_from_mol_block block tag = .ok none := by
  have hfp : hasPropB block tag = false := by
    rw [hasPropB, List.any_eq_false]
    intro l hl
    simpa using h3 l hl
  rw [get_prop_eq_of_mem block tag h1, if_neg ?hcond]
  case hcond =>
    rintro (hp | hi)
    · rw [hfp] at hp
      exact Bool.noConfusion hp
    · exact h2 hi

/-- Witness for C2 at a block with a single unrelated line. -/
theorem get_prop_absent_tag_returns_none_witness :
    _get_prop_value_from_mol_block ["x"] SDF_TAG_NAME = .ok none :=
  get_prop_absent_tag_returns_none ["x"] SDF_TAG_NAME (by decide) (by decide) (by decide)

/-- C3 counterexample: `'InChI=nX'.strip('InChI=')` is a character-set strip,
so the comment line `InChI=nX` yields `X`, not the plain-suffix `nX` the claim
asserts. -/
theorem get_prop_inchi_strip_cex :
    _get_prop_value_from_mol_block [">  <COMMENT>", "InChI=nX"] SDF_TAG_INCHI
      = .ok (some "X") ∧
    _get_prop_value_from_mol_block [">  <COMMENT>", "InChI=nX"] SDF_TAG_INCHI
      ≠ .ok (some "nX") :=
  ⟨rfl, by decide⟩

/-- C3 (amended): the InChI lookup scans for the comment-section header
`>  <COMMENT>`, returns a non-default value only when the line following such a
header begins with `InChI=`, and the value is that line with the characters of
the set I n C h I = stripped from both ends (Python `str.strip('InChI=')`),
not an exact prefix removal. -/
theorem get_prop_inchi_from_comment (block : List String) (v : String)
    (h : _get_prop_value_from_mol_block block SDF_TAG_INCHI = .ok (some v)) (hv : v ≠ "") :
    ∃ i hl next, block[i]? = some hl ∧ pyTrim hl = ">  <COMMENT>" ∧
      block[i + 1]? = some next ∧ pyStartsWith next "InChI=" = true ∧
      v = pyStrip next "InChI=" := by
  rw [get_prop_inchi_eq] at h
  cases hl : get_prop_loop ">  <COMMENT>" block with
  | error e => rw [hl] at h; exact Except.noConfusion h
  | ok w =>
    rw [hl] at h
    have hw : w = v := Option.some.inj (Except.ok.inj h)
    subst hw
    exact get_prop_loop_comment_ok w hv block hl

/-- Witness for C3 at a comment section holding `InChI=1S/X`. -/
theorem get_prop_inchi_from_comment_witness :
    ∃ i hl next, ([">  <COMMENT>", "InChI=1S/X"] : List String)[i]? = some hl ∧
      pyTrim hl = ">  <COMMENT>" ∧
      ([">  <COMMENT>", "InChI=1S/X"] : List String)[i + 1]? = some next ∧
      pyStartsWith next "InChI=" = true ∧ "1S/X" = pyStrip next "InChI=" :=
  get_prop_inchi_from_comment [">  <COMMENT>", "InChI=1S/X"] "1S/X" rfl (by decide)

/-- C4: when the repairer's loop reaches the record-terminator line it emits,
in order, the InChI section header, the InChI value, a blank line, the InChIKey
section header, the InChIKey value, a blank line, and the terminator line; the
InChIKey value comes from the conversion collaborator applied to
`'InChI=' + inchi` exactly when the extracted InChI is non-empty, and on an
empty InChI it is the empty string with the collaborator's call log unchanged
(the collaborator is not invoked). -/
theorem make_step_terminator_emits (conv : String → String) (block calls : List String)
    (line inchi : String)
    (hv : pyIn "V2000" line = false) (hn : pyIn ">  <NAME>" line = false)
    (ht : pyIn "$$$$" line = true)
    (hg : _get_prop_value_from_mol_block block SDF_TAG_INCHI = .ok (some inchi)) :
    make_mol_block_step conv (block, calls) line =
      .ok (block ++ [sdfHeader "INCHI", inchi, ""] ++
        [sdfHeader SDF_TAG_INCHIKEY,
          (if inchi = "" then "" else conv ("InChI=" ++ inchi)), "", line],
        calls ++ (if inchi = "" then [] else ["InChI=" ++ inchi])) := by
  simp only [make_mol_block_step, hv, hn, ht, hg, Bool.false_eq_true, if_false, if_true,
    Option.getD_some]
  by_cases hi : inchi = "" <;> simp [hi]

/-- Witness for C4 at a terminator step whose extracted InChI is `AB`. -/
theorem make_step_terminator_emits_witness :
    make_mol_block_step conv_test ([">  <COMMENT>", "InChI=AB"], []) "$$$$"
      = .ok ([">  <COMMENT>", "InChI=AB", ">  <INCHI>", "AB", "",
          ">  <INCHIKEY>", "KEY-InChI=AB", "", "$$$$"], ["InChI=AB"]) := by
  have h := make_step_terminator_emits conv_test [">  <COMMENT>", "InChI=AB"] [] "$$$$" "AB"
    rfl rfl rfl rfl
  rw [h]
  decide

/-- C5: both property accessors raise `ValueError` exactly when the tag lies
outside the closed five-element tag set; for a tag inside the set neither
operation can produce that error. -/
theorem prop_accessors_valueError_iff (block : List String) (tag : String) :
    (_has_prop_on_mol_block block tag = .error .valueError ↔ tag ∉ expected_props) ∧
    (_get_prop_value_from_mol_block block tag = .error .valueError ↔ tag ∉ expected_props) := by
  constructor
  · constructor
    · intro h hk
      rw [has_prop_ok block tag hk] at h
      exact Except.noConfusion h
    · intro hk
      rw [_has_prop_on_mol_block, if_pos hk]
  · constructor
    · intro h hk
      rw [get_prop_eq_of_mem block tag hk] at h
      by_cases hc : hasPropB block tag = true ∨ tag = SDF_TAG_INCHI
      · rw [if_pos hc] at h
        generalize (if sdfHeader (pyToUpper tag) = ">  <INCHI>" then ">  <COMMENT>"
          else sdfHeader (pyToUpper tag)) = pk at h
        cases hl : get_prop_loop pk block with
        | error e =>
          rw [hl] at h
          exact get_prop_loop_ne_valueError pk block (by rw [hl, Except.error.inj h])
        | ok v =>
          rw [hl] at h
          exact Except.noConfusion h
      · rw [if_neg hc] at h
        exact Except.noConfusion h
    · intro hk
      rw [_get_prop_value_from_mol_block, _has_prop_on_mol_block, if_pos hk]

/-- Witness for C5 at a tag outside the closed set. -/
theorem prop_accessors_valueError_iff_witness :
    _has_prop_on_mol_block ["x"] "BOGUS" = .error .valueError ∧
    _get_prop_value_from_mol_block ["x"] "BOGUS" = .error .valueError :=
  ⟨(prop_accessors_valueError_iff ["x"] "BOGUS").1.mpr (by decide),
   (prop_accessors_valueError_iff ["x"] "BOGUS").2.mpr (by decide)⟩

/-- C6 counterexample: a record with no counts-line marker but with a
name-section header: the repairer also inserts the end-of-structure marker
`M  END`, so its output differs from the terminator-only repair, refuting the
claim for records that merely lack a V2000 line. -/
theorem make_mol_block_no_v2000_cex :
    (([">  <NAME>", "$$$$"] : List String).all (fun l => !(pyIn "V2000" l)) = true) ∧
    _make_mol_block_from_string conv_test [">  <NAME>", "$$$$"]
      ≠ repair_terminator_only conv_test [">  <NAME>", "$$$$"] ∧
    _make_mol_block_from_string conv_test [">  <NAME>", "$$$$"]
      = .ok ["M  END", ">  <NAME>", ">  <INCHI>", "", "", ">  <INCHIKEY>", "", "", "$$$$"] :=
  ⟨rfl, by decide, rfl⟩

/-- C6 (amended): for every raw record containing neither a counts-line marker
(V2000) line nor a name-section header line, the repairer's output equals the
input lines with only the terminator-triggered insertion applied. -/
theorem make_mol_block_no_markers_terminator_only (conv : String → String)
    (lines : List String)
    (h : ∀ l ∈ lines, pyIn "V2000" l = false ∧ pyIn ">  <NAME>" l = false) :
    _make_mol_block_from_string conv lines = repair_terminator_only conv lines := by
  rw [_make_mol_block_from_string, repair_terminator_only,
    foldlM_make_eq_terminator_only conv lines ([], []) h]

/-- Witness for C6 at a marker-free two-line record. -/
theorem make_mol_block_no_markers_terminator_only_witness :
    _make_mol_block_from_string conv_test ["hello", "$$$$"]
      = repair_terminator_only conv_test ["hello", "$$$$"] :=
  make_mol_block_no_markers_terminator_only conv_test ["hello", "$$$$"] (by decide)

/-- C7: in every completed run, `num_valid + num_failed` equals (hence never
exceeds) the number of normalizer-accepted blocks, and is strictly below the
raw record count whenever the normalizer accepted strictly fewer blocks than
there are raw records (at least one rejection). -/
theorem convert_to_sdf_counts_bounded
    (conv : String → String) (norm : String → Option (List String)) (atomCount : String → Nat)
    (records : List (List String)) (path : String) (fn od : Option String)
    (r : ConvertResult) (acc : List (List String))
    (hc : convert_to_sdf conv norm atomCount records path fn od = .ok r)
    (ha : accepted_mol_blocks conv norm records = .ok acc) :
    r.num_valid_mol_block + r.num_failed_mol_block ≤ acc.length ∧
    (acc.length < records.length →
      r.num_valid_mol_block + r.num_failed_mol_block < records.length) := by
  have h := convert_ok_spec conv norm atomCount records path fn od r acc hc ha
  have hsum : r.num_valid_mol_block + r.num_failed_mol_block = acc.length := by
    rw [h.2.2.1, h.2.2.2.1, h.1, h.2.1]
    exact length_filter_split acc (fun b => checkAllPropsB b)
  exact ⟨le_of_eq hsum, fun hlt => by omega⟩

/-- Witness for C7: a two-record run in which the normalizer rejects one
record; the counts sum to the single accepted block and stay below the raw
record count. -/
theorem convert_to_sdf_counts_bounded_witness :
    (convert_to_sdf conv_test norm_reject_b atom_len [["a"], ["b"]] "/d/in.sdf"
        (some "f.sdf") (some "/o")
      = .ok ⟨[], [["a"]], 0, 1, 0, none, some ("/o/f.sdf", [["a"]])⟩) ∧
    (accepted_mol_blocks conv_test norm_reject_b [["a"], ["b"]] = .ok [["a"]]) ∧
    (0 + 1 ≤ 1 ∧ 0 + 1 < 2) := by
  refine ⟨rfl, rfl, ?_⟩
  have h := convert_to_sdf_counts_bounded conv_test norm_reject_b atom_len [["a"], ["b"]]
    "/d/in.sdf" (some "f.sdf") (some "/o")
    ⟨[], [["a"]], 0, 1, 0, none, some ("/o/f.sdf", [["a"]])⟩ [["a"]] rfl rfl
  exact ⟨h.1, h.2 (by decide)⟩

/-- C8: in every completed run, when the valid group is empty no
converted-output write happens and the returned maximum atom count is exactly
0; when the valid group is non-empty the returned maximum atom count is the
maximum of the atom-count collaborator over the valid group only. -/
theorem convert_to_sdf_max_atoms_valid_only
    (conv : String → String) (norm : String → Option (List String)) (atomCount : String → Nat)
    (records : List (List String)) (path : String) (fn od : Option String)
    (r : ConvertResult)
    (hc : convert_to_sdf conv norm atomCount records path fn od = .ok r) :
    (r.valid_mol_block_list = [] → r.validWrite = none ∧ r.max_num_atoms = 0) ∧
    (r.valid_mol_block_list ≠ [] →
      r.max_num_atoms = (specMaxAtoms atomCount r.valid_mol_block_list : Int)) := by
  cases hacc : accepted_mol_blocks conv norm records with
  | error e =>
    simp only [convert_to_sdf, hacc] at hc
    exact Except.noConfusion hc
  | ok acc =>
    have h := convert_ok_spec conv norm atomCount records path fn od r acc hc hacc
    constructor
    · intro hv
      have hemp : r.valid_mol_block_list.isEmpty = true := by simp [hv]
      refine ⟨h.2.2.2.2.1 hemp, ?_⟩
      rw [h.2.2.2.2.2, if_pos hemp]
    · intro hv
      have hemp : r.valid_mol_block_list.isEmpty = false := by
        cases hve : r.valid_mol_block_list.isEmpty
        · rfl
        · exact absurd (by simpa using hve) hv
      rw [h.2.2.2.2.2, if_neg (by simp [hemp]), max_atoms_eq_spec]

/-- Witness for C8: a run whose only accepted block lacks the required tags,
so the valid group is empty, no converted-output write is recorded, and the
maximum atom count is 0. -/
theorem convert_to_sdf_max_atoms_valid_only_witness :
    (convert_to_sdf conv_test norm_accept atom_len [["a"]] "/d/in.sdf"
        (some "f.sdf") (some "/o")
      = .ok ⟨[], [["a"]], 0, 1, 0, none, some ("/o/f.sdf", [["a"]])⟩) ∧
    ((⟨[], [["a"]], 0, 1, 0, none, some ("/o/f.sdf", [["a"]])⟩ : ConvertResult).validWrite = none ∧
     (⟨[], [["a"]], 0, 1, 0, none, some ("/o/f.sdf", [["a"]])⟩ : ConvertResult).max_num_atoms = 0) := by
  refine ⟨rfl, ?_⟩
  have h := convert_to_sdf_max_atoms_valid_only conv_test norm_accept atom_len [["a"]]
    "/d/in.sdf" (some "f.sdf") (some "/o")
    ⟨[], [["a"]], 0, 1, 0, none, some ("/o/f.sdf", [["a"]])⟩ rfl
  exact h.1 rfl

/-- C9 (code bug): `convert_to_sdf` with the default `failed_block_file_name`
(Python `None`) raises `TypeError` at `os.path.join(output_dir, None)` before
returning, instead of completing normally and skipping the failed-block file
as its docstring promises; the run shown supplies records and an output
directory and still fails. -/
theorem convert_to_sdf_default_failed_name_raises :
    convert_to_sdf conv_test norm_accept atom_len [["x"]] "/d/in.sdf" none (some "/out")
      = .error .typeError := rfl

/-- Plain-tag helper for C10: when the first line stripping to the tag's
header is the last line of the block, the lookup reads one index past the end
and raises `IndexError`. -/
lemma get_prop_plain_last_raises (pre : List String) (line tag : String)
    (hk : tag ∈ expected_props)
    (hpk : sdfHeader (pyToUpper tag) = sdfHeader tag)
    (hni : sdfHeader tag ≠ ">  <INCHI>")
    (hnc : sdfHeader tag ≠ ">  <COMMENT>")
    (hl : pyTrim line = sdfHeader tag)
    (hpre : ∀ l ∈ pre, pyTrim l ≠ sdfHeader tag) :
    _get_prop_value_from_mol_block (pre ++ [line]) tag = .error .indexError := by
  have hhp : hasPropB (pre ++ [line]) tag = true := by
    simp [hasPropB, List.any_append, hl]
  rw [get_prop_eq_of_mem (pre ++ [line]) tag hk, hpk, if_neg hni,
    if_pos (Or.inl hhp), get_prop_loop_append (sdfHeader tag) [line] pre hpre]
  have hloop : get_prop_loop (sdfHeader tag) [line] = .error .indexError := by
    simp only [get_prop_loop]
    rw [if_neg (fun hc => hnc hc.1), if_pos hl.symm]
    rfl
  rw [hloop]

/-- C10 (amended): the lookup is total only when the first matching header has
a following line: for every block whose first plain-tag header line (or, for
the InChI tag, first `>  <COMMENT>` header line) is the block's last line, the
lookup accesses index `ind + 1` past the end and raises `IndexError` instead
of returning a value. -/
theorem get_prop_first_matching_header_last_raises :
    (∀ (pre : List String) (line tag : String), tag ∈ expected_props →
      tag ≠ SDF_TAG_INCHI → pyTrim line = sdfHeader tag →
      (∀ l ∈ pre, pyTrim l ≠ sdfHeader tag) →
      _get_prop_value_from_mol_block (pre ++ [line]) tag = .error .indexError) ∧
    (∀ (pre : List String) (line : String), pyTrim line = ">  <COMMENT>" →
      (∀ l ∈ pre, pyTrim l ≠ ">  <COMMENT>") →
      _get_prop_value_from_mol_block (pre ++ [line]) SDF_TAG_INCHI = .error .indexError) := by
  constructor
  · intro pre line tag hk hne hl hpre
    have hk2 := hk
    simp only [expected_props, List.mem_cons, List.not_mem_nil, or_false] at hk2
    rcases hk2 with rfl | rfl | rfl | rfl | rfl
    · exact get_prop_plain_last_raises pre line _ hk (by decide) (by decide) (by decide) hl hpre
    · exact get_prop_plain_last_raises pre line _ hk (by decide) (by decide) (by decide) hl hpre
    · exact absurd rfl hne
    · exact get_prop_plain_last_raises pre line _ hk (by decide) (by decide) (by decide) hl hpre
    · exact get_prop_plain_last_raises pre line _ hk (by decide) (by decide) (by decide) hl hpre
  · intro pre line hl hpre
    rw [get_prop_inchi_eq, get_prop_loop_append ">  <COMMENT>" [line] pre hpre]
    have hloop : get_prop_loop ">  <COMMENT>" [line] = .error .indexError := by
      simp only [get_prop_loop]
      rw [if_pos ⟨trivial, hl.symm⟩]
      rfl
    rw [hloop]

/-- C10 counterexample: a block in which a matching NAME header *is* the last
line, yet the lookup succeeds (the loop broke at the earlier first match), so
the claim's "for any block in which such a header is the last line" fails as
stated. -/
theorem get_prop_header_last_line_cex :
    _get_prop_value_from_mol_block [">  <NAME>", "v", ">  <NAME>"] SDF_TAG_NAME
      = .ok (some "v") ∧
    _get_prop_value_from_mol_block [">  <NAME>", "v", ">  <NAME>"] SDF_TAG_NAME
      ≠ .error .indexError :=
  ⟨rfl, by decide⟩

/-- Witness for C10: a one-line block whose only line is the NAME header. -/
theorem get_prop_first_matching_header_last_raises_witness :
    _get_prop_value_from_mol_block [">  <NAME>"] SDF_TAG_NAME = .error .indexError :=
  get_prop_first_matching_header_last_raises.1 [] ">  <NAME>" SDF_TAG_NAME
    (by decide) (by decide) (by decide) (by simp)
